import Mathlib

/-!
A shallow embedding of the alignment-dataset ingestion and embedding pipeline
(`src/dataset.py`): record-field extraction, the per-record ingestion loop with
its error tallying, the concurrent embedding collection loop, the retry policy,
and the persistence round trip, together with theorems settling the claims
about them.
-/

namespace StampyChat

/-- Python truthiness of a string: nonempty. -/
def strTruthy (s : String) : Bool := s != ""

/-- Python truthiness of an optional string field: the key is present and the
value is a nonempty string (`'k' in article and article['k']`). -/
def truthy : Option String → Bool
  | some s => strTruthy s
  | none => false

/-- `if title[-1] == '\n': title = title[:-1]` — drop one trailing newline. -/
def pyStrip (s : String) : String := if s.endsWith "\n" then s.dropRight 1 else s

/-- The first candidate that is present with a truthy (nonempty) value. -/
def firstTruthy : List (Option String) → Option String
  | [] => none
  | o :: rest => if truthy o then o else firstTruthy rest

/-- The first candidate whose key is present at all, regardless of value. -/
def firstPresent : List (Option String) → Option String
  | [] => none
  | some s :: _ => some s
  | none :: rest => firstPresent rest

/-- `len(text.split())`: Python `str.split()` splits on whitespace runs and
drops empty pieces. -/
def pyWordCount (s : String) : Nat :=
  ((s.split (fun c => c.isWhitespace)).filter (fun w => w != "")).length

/-- The shapes the `tags` field takes in the corpus: a list of dicts each
carrying an optional `term` key, a plain string, or some other truthy value. -/
inductive TagsVal where
  | tlist (items : List (Option String))
  | tstr (s : String)
  | tother
deriving DecidableEq

/-- Python truthiness for the `tags` value. -/
def tagsTruthy : TagsVal → Bool
  | .tlist l => !l.isEmpty
  | .tstr s => strTruthy s
  | .tother => true

/-- Exceptions the extraction code can raise: `MissingDataException(reason)`
from `dataset.py`, or a `KeyError` from `val['term']` on a malformed tags
list, which nothing in the loader catches. -/
inductive PyErr where
  | missingData (reason : String)
  | keyError
deriving DecidableEq

/-- One corpus record (a parsed jsonl line).  Only the keys `dataset.py`
consults are modelled; an absent key is `none`. -/
structure Article where
  source : Option String := none
  title : Option String := none
  book_title : Option String := none
  author : Option String := none
  authors : Option String := none
  date_published : Option String := none
  published : Option String := none
  link : Option String := none
  url : Option String := none
  doi : Option String := none
  tags : Option TagsVal := none
  text : Option String := none
  question : Option String := none
  answer : Option String := none
  article_url : Option String := none

/-- The "Get title" chain of `extract_info_from_article`: `title` wins when
both keys are present and `title` is truthy; `book_title` (newline-stripped)
when only it is present; a lone truthy `title` is newline-stripped; otherwise
`None`. -/
def getTitle (e : Article) : Option String :=
  if e.title.isSome && e.book_title.isSome && truthy e.title then e.title
  else if e.book_title.isSome && e.title.isNone && truthy e.book_title then
    e.book_title.map pyStrip
  else if e.title.isSome && truthy e.title then e.title.map pyStrip
  else none

/-- The "Get author" chain: `author` when both keys present and truthy,
else a truthy `authors`, else a truthy `author`, else `None`. -/
def getAuthor (e : Article) : Option String :=
  if e.author.isSome && e.authors.isSome && truthy e.author then e.author
  else if e.authors.isSome && truthy e.authors then e.authors
  else if e.author.isSome && truthy e.author then e.author
  else none

/-- A date candidate is usable when present, truthy, and long enough. -/
def dateOk (o : Option String) (n : Nat) : Bool :=
  match o with
  | some d => strTruthy d && decide (n ≤ d.length)
  | none => false

/-- The "Get date published" chain: `date_published[:10]` when at least 10
characters, else `published[:16]` when at least 16 characters, else `None`. -/
def getDate (e : Article) : Option String :=
  if dateOk e.date_published 10 then some ((e.date_published.getD "").take 10)
  else if dateOk e.published 16 then some ((e.published.getD "").take 16)
  else none

/-- The "Get URL" chain: `link`, then `url`, then `doi`, first truthy wins. -/
def getUrl (e : Article) : Option String :=
  if e.link.isSome && truthy e.link then e.link
  else if e.url.isSome && truthy e.url then e.url
  else if e.doi.isSome && truthy e.doi then e.doi
  else none

/-- The "Get tags" logic: a truthy list is joined over each item's `term` key
(a missing `term` raises `KeyError`), a truthy string is kept as is, any other
truthy value yields `None`; an absent or falsy field yields `None`. -/
def getTags (e : Article) : Except PyErr (Option String) :=
  match e.tags with
  | some t =>
    if tagsTruthy t then
      match t with
      | .tlist items =>
        match items.mapM (fun o => o) with
        | some terms => .ok (some (String.intercalate ", " terms))
        | none => .error .keyError
      | .tstr s => .ok (some s)
      | .tother => .ok none
    else .ok none
  | none => .ok none

/-- The "Get text" check: a present truthy `text` is returned, otherwise
`MissingDataException("Entry has no text.")` is raised. -/
def getText (e : Article) : Except PyErr String :=
  match e.text with
  | some t => if strTruthy t then .ok t else .error (.missingData "Entry has no text.")
  | none => .error (.missingData "Entry has no text.")

/-- `Dataset.extract_info_from_article`: the six attributes in source order;
the tags computation runs (and can raise) before the text check. -/
def extract_info_from_article (e : Article) :
    Except PyErr (Option String × Option String × Option String × Option String × Option String × String) :=
  match getTags e with
  | .error err => .error err
  | .ok tags =>
    match getText e with
    | .error err => .error err
    | .ok text => .ok (getTitle e, getAuthor e, getDate e, getUrl e, tags, text)

/-- Outcome of the source-determination block at the top of the ingestion
loop: a source string, a skip (`continue` for printouts), or a raised
`MissingDataException("Entry has no source.")`. -/
inductive SourceResult where
  | src (s : String)
  | skip
  | fail
deriving DecidableEq

/-- Lines 137–150 of `dataset.py`: use the record's own `source`, else the
URL-pattern fallbacks in order (Cold Takes, printouts-skip, gwern.net,
generative.ink, greaterwrong.com), else raise. -/
def sourceOf (e : Article) : SourceResult :=
  match e.source with
  | some s => .src s
  | none =>
    if e.url = some "https://www.cold-takes.com/" then .src "Cold Takes"
    else if e.question.isSome && e.answer.isSome then .skip
    else if e.article_url = some "https://www.gwern.net" then .src "gwern.net"
    else if e.url = some "https://generative.ink/posts/" then .src "generative.ink"
    else
      match e.url with
      | some u => if u.take 24 = "https://greaterwrong.com" then .src "greaterwrong.com" else .fail
      | none => .fail

/-- The signature block: comma-joined `Key: value` pairs for the truthy
attributes among title/author/date/url (tags excluded), trailing ", "
removed when nonempty. -/
def signatureOf (title author date_published url : Option String) : String :=
  let s0 := ""
  let s1 := if truthy title then s0 ++ "Title: " ++ title.getD "" ++ ", " else s0
  let s2 := if truthy author then s1 ++ "Author: " ++ author.getD "" ++ ", " else s1
  let s3 := if truthy date_published then s2 ++ "Date published: " ++ date_published.getD "" ++ ", " else s2
  let s4 := if truthy url then s3 ++ "URL: " ++ url.getD "" ++ ", " else s3
  if s4 != "" then s4.dropRight 2 else s4

/-- One metadata tuple `(title, author, date_published, url, tags, text)`. -/
abbrev MetaTuple :=
  Option String × Option String × Option String × Option String × Option String × String

/-- The mutable state the ingestion pass maintains: the `Dataset` attributes
touched by `get_alignment_texts` plus the module-level `error_count_dict`. -/
structure IngestState where
  metadata : List MetaTuple
  embedding_strings : List String
  articles_count : String → Nat
  total_articles_count : Nat
  total_char_count : Nat
  total_word_count : Nat
  total_sentence_count : Nat
  total_block_count : Nat
  error_counts : List (String × Nat)

/-- Lookup in the insertion-ordered error tally. -/
def assocGet : List (String × Nat) → String → Option Nat
  | [], _ => none
  | (k2, v) :: rest, k => if k2 = k then some v else assocGet rest k

/-- The `except MissingDataException` handler: create the key with 0 if
unseen, then increment it. -/
def assocIncr : List (String × Nat) → String → List (String × Nat)
  | [], k => [(k, 1)]
  | (k2, v) :: rest, k =>
    if k2 = k then (k2, v + 1) :: rest else (k2, v) :: assocIncr rest k

/-- Tally a rejection reason into the state's error dictionary. -/
def tallySt (st : IngestState) (reason : String) : IngestState :=
  { st with error_counts := assocIncr st.error_counts reason }

/-- State at the start of a pass: empty lists, zero counters, and the five
preset keys of the module-level `error_count_dict`, each at 0. -/
def startState : IngestState :=
  { metadata := []
    embedding_strings := []
    articles_count := fun _ => 0
    total_articles_count := 0
    total_char_count := 0
    total_word_count := 0
    total_sentence_count := 0
    total_block_count := 0
    error_counts := [("Entry has no source.", 0), ("Entry has no title.", 0),
      ("Entry has no text.", 0), ("Entry has no URL.", 0),
      ("Entry has wrong citation level.", 0)] }

/-- The `Dataset` configuration the ingestion pass reads: the custom-source
allow list, the sampling fraction, and the splitter functions (the
`TokenSplitter` instance and `split_into_sentences`, abstracted as
functions). -/
structure IngestCfg where
  custom_sources : Option (List String)
  fraction : ℚ
  splitFn : String → String → List String
  sentFn : String → List String

/-- The allow-list check: skip when a custom list is configured and the
source is not in it. -/
def filterSkips : Option (List String) → String → Bool
  | none, _ => false
  | some l, s => !(l.contains s)

/-- `self.articles_count[entry['source']] += 1; self.total_articles_count += 1`
— note these run before extraction. -/
def incArt (st : IngestState) (s : String) : IngestState :=
  { st with
    articles_count := fun s2 => if s2 = s then st.articles_count s + 1 else st.articles_count s2
    total_articles_count := st.total_articles_count + 1 }

/-- The successful tail of the loop body: build the signature, split the text
into blocks, append the metadata tuple and the blocks, update the char /
word / sentence / block statistics. -/
def appendArticle (cfg : IngestCfg) (st : IngestState) (tup : MetaTuple) : IngestState :=
  let sig := signatureOf tup.1 tup.2.1 tup.2.2.1 tup.2.2.2.1
  let text := tup.2.2.2.2.2
  let blocks := cfg.splitFn text sig
  { st with
    metadata := st.metadata ++ [tup]
    embedding_strings := st.embedding_strings ++ blocks
    total_char_count := st.total_char_count + text.length
    total_word_count := st.total_word_count + pyWordCount text
    total_sentence_count := st.total_sentence_count + (cfg.sentFn text).length
    total_block_count := st.total_block_count + blocks.length }

/-- One iteration of the ingestion loop body for one record, mirroring the
source order: source determination (may skip or raise), Bernoulli sampling,
allow-list filter, article-count increments, extraction (whose
`MissingDataException` the handler tallies but whose other exceptions
propagate), signature, metadata/blocks append, statistics update.  Returns
the outcome, the state after the iteration (including mutations made before
an uncaught exception), and the next random-stream position. -/
def processEntry (cfg : IngestCfg) (rands : Nat → ℚ) (e : Article)
    (st : IngestState) (k : Nat) : Except PyErr Unit × IngestState × Nat :=
  match sourceOf e with
  | .skip => (.ok (), st, k)
  | .fail => (.ok (), tallySt st "Entry has no source.", k)
  | .src s =>
    if rands k > cfg.fraction then (.ok (), st, k + 1)
    else if filterSkips cfg.custom_sources s then (.ok (), st, k + 1)
    else
      let st1 := incArt st s
      match extract_info_from_article e with
      | .error (.missingData reason) => (.ok (), tallySt st1 reason, k + 1)
      | .error err => (.error err, st1, k + 1)
      | .ok tup => (.ok (), appendArticle cfg st1 tup, k + 1)

/-- The loop over all records: an uncaught exception from an iteration aborts
the pass with the state as it stood. -/
def ingestGo (cfg : IngestCfg) (rands : Nat → ℚ) :
    List Article → IngestState → Nat → Except PyErr Unit × IngestState
  | [], st, _ => (.ok (), st)
  | e :: rest, st, k =>
    match processEntry cfg rands e st k with
    | (.ok _, st2, k2) => ingestGo cfg rands rest st2 k2
    | (.error err, st2, _) => (.error err, st2)

/-- `Dataset.get_alignment_texts`: run the loop from the start state over the
parsed corpus, with `rands` the stream of `random.random()` draws. -/
def get_alignment_texts (cfg : IngestCfg) (rands : Nat → ℚ)
    (entries : List Article) : Except PyErr Unit × IngestState :=
  ingestGo cfg rands entries startState 0

/-- A concrete configuration for the scenario theorems: no allow list,
sampling fraction 1 (the default: every record kept), a one-block splitter
and a one-sentence splitter. -/
def cfg0 : IngestCfg :=
  { custom_sources := none
    fraction := 1
    splitFn := fun text sig => [sig ++ " - " ++ text]
    sentFn := fun text => [text] }

/-- `self.delay_in_seconds = 60.0 / self.rate_limit_per_minute` from
`Dataset.__init__`. -/
def delay_in_seconds (rate_limit_per_minute : ℚ) : ℚ := 60 / rate_limit_per_minute

/-- How long `get_embedding_at_index` sleeps: exactly its `delay_in_seconds`
argument (`time.sleep(delay_in_seconds)`). -/
def get_embedding_at_index_sleep (d : ℚ) : ℚ := d

/-- The sleep performed before request `i` in `get_embeddings`: the submit
call is `executor.submit(get_embedding_at_index, text, i)`, which omits the
delay argument, so the Python default `0` is used for every request. -/
def get_embeddings_sleep (_i : Nat) : ℚ := get_embedding_at_index_sleep 0

/-- `np.zeros((n, len))`: the pre-allocated result matrix. -/
def zeroMatrix (n len : Nat) : List (List ℚ) := List.replicate n (List.replicate len 0)

/-- The `as_completed` collection loop of `get_embeddings`: futures are
consumed in completion order; `future.result()` re-raises the first failure,
stopping the loop with the matrix as it stands; a success writes its vector
at its own index. -/
def processCompletions (results : Nat → Except Unit (List ℚ)) :
    List Nat → List (List ℚ) → Except Unit Unit × List (List ℚ)
  | [], m => (.ok (), m)
  | i :: rest, m =>
    match results i with
    | .error e => (.error e, m)
    | .ok v => processCompletions results rest (m.set i v)

/-- `Dataset.get_embeddings` on `n` blocks: allocate the zero matrix and run
the collection loop; `results i` is the final outcome of block `i`'s
(retry-wrapped) request and `order` the completion order.  Returns the call
outcome and the final `self.embeddings`. -/
def runGetEmbeddings (n len : Nat) (results : Nat → Except Unit (List ℚ))
    (order : List Nat) : Except Unit Unit × List (List ℚ) :=
  processCompletions results order (zeroMatrix n len)

/-- Modelled from the spec: the wait drawn by tenacity's
`wait_random_exponential(min=1, max=20)` before the retry after failed
attempt `n` — "randomized exponential backoff (initial wait ≈1 time unit,
cap ≈20 time units)"; the tenacity library itself is not part of this
repository, while the bounds 1 and 20 are the arguments given in
`dataset.py`. -/
def backoffWait (minW maxW : ℚ) (n : Nat) (r : ℚ) : ℚ :=
  max minW (min maxW (r * 2 ^ n))

/-- Modelled from the spec: the retry driver of the `@retry(...)` decorator
with `stop=stop_after_attempt(maxAttempts)` — run attempts in order; a
success returns; a failure waits `waits k` and retries while attempts
remain; the failure of the last permitted attempt is re-raised.  Returns the
outcome, the number of attempts made, and the waits performed. -/
def retryGo (op : Nat → Except Unit (List ℚ)) (waits : Nat → ℚ) :
    Nat → Nat → Except Unit (List ℚ) × Nat × List ℚ
  | 0, k => (.error (), k, [])
  | fuel + 1, k =>
    match op k with
    | .ok a => (.ok a, k + 1, [])
    | .error e =>
      match fuel with
      | 0 => (.error e, k + 1, [])
      | f + 1 =>
        let r := retryGo op waits (f + 1) (k + 1)
        (r.1, r.2.1, waits k :: r.2.2)

/-- Modelled from the spec: a whole retry-wrapped call starting at attempt 0. -/
def retryRun (maxAttempts : Nat) (op : Nat → Except Unit (List ℚ))
    (waits : Nat → ℚ) : Except Unit (List ℚ) × Nat × List ℚ :=
  retryGo op waits maxAttempts 0

/-- Modelled from the spec: the persisted-vector-matrix medium — "a single
opaque blob … loadable back into the same shape it was saved with"
(`np.save`/`np.load` are external library calls); a file system maps a path
to the matrix stored there, if any. -/
def npSave (fs : String → Option (List (List ℚ))) (path : String)
    (m : List (List ℚ)) : String → Option (List (List ℚ)) :=
  fun p => if p = path then some m else fs p

/-- Modelled from the spec: reading the blob back. -/
def npLoad (fs : String → Option (List (List ℚ))) (path : String) :
    Option (List (List ℚ)) :=
  fs path

/-- `Dataset.save_embeddings(path)`: `np.save(path, self.embeddings)`. -/
def save_embeddings (embeddings : List (List ℚ))
    (fs : String → Option (List (List ℚ))) (path : String) :
    String → Option (List (List ℚ)) :=
  npSave fs path embeddings

/-- `Dataset.load_embeddings(path)`: `self.embeddings = np.load(path)`. -/
def load_embeddings (fs : String → Option (List (List ℚ))) (path : String) :
    Option (List (List ℚ)) :=
  npLoad fs path

theorem processCompletions_allOk (emb : Nat → List ℚ) :
    ∀ (order : List Nat) (m : List (List ℚ)),
    processCompletions (fun i => .ok (emb i)) order m =
      (.ok (), order.foldl (fun acc j => acc.set j (emb j)) m)
  | [], _ => rfl
  | i :: rest, m => by
    simpa [processCompletions] using processCompletions_allOk emb rest (m.set i (emb i))

theorem foldlSet_length (emb : Nat → List ℚ) :
    ∀ (order : List Nat) (m : List (List ℚ)),
    (order.foldl (fun acc j => acc.set j (emb j)) m).length = m.length
  | [], _ => rfl
  | i :: rest, m => by
    simp only [List.foldl_cons]
    rw [foldlSet_length emb rest, List.length_set]

theorem foldlSet_getElem? (emb : Nat → List ℚ) :
    ∀ (order : List Nat) (m : List (List ℚ)) (i : Nat),
    (order.foldl (fun acc j => acc.set j (emb j)) m)[i]? =
      if i ∈ order ∧ i < m.length then some (emb i) else m[i]?
  | [], m, i => by simp
  | j :: rest, m, i => by
    simp only [List.foldl_cons]
    rw [foldlSet_getElem? emb rest (m.set j (emb j)) i]
    rw [List.length_set, List.getElem?_set]
    by_cases hmem : i ∈ rest <;> by_cases hlen : i < m.length <;>
      by_cases hij : j = i <;> subst_eqs <;>
      simp_all [List.mem_cons, Nat.not_lt, List.getElem?_eq_none, ne_comm] <;>
      first
      | rw [if_neg (Ne.symm hij)]
      | simp [Ne.symm hij]

theorem processCompletions_length (results : Nat → Except Unit (List ℚ)) :
    ∀ (order : List Nat) (m : List (List ℚ)),
    (processCompletions results order m).2.length = m.length
  | [], _ => rfl
  | i :: rest, m => by
    unfold processCompletions
    cases results i with
    | error e => rfl
    | ok v =>
      simp only []
      rw [processCompletions_length results rest, List.length_set]

theorem processCompletions_stops (results : Nat → Except Unit (List ℚ)) :
    ∀ (order : List Nat) (m : List (List ℚ)),
    (∃ j ∈ order, results j = .error ()) →
    ∃ collected : List Nat,
      (∀ x ∈ collected, results x ≠ .error ()) ∧
      (processCompletions results order m).1 = .error () ∧
      ∀ i, i ∉ collected → (processCompletions results order m).2[i]? = m[i]?
  | [], _, hex => absurd hex (by simp)
  | j :: rest, m, hex => by
    unfold processCompletions
    cases hj : results j with
    | error e =>
      refine ⟨[], by simp, rfl, fun i _ => rfl⟩
    | ok v =>
      have hex2 : ∃ i ∈ rest, results i = .error () := by
        obtain ⟨i, hi, hie⟩ := hex
        rcases List.mem_cons.mp hi with h1 | h1
        · subst h1; rw [hj] at hie; cases hie
        · exact ⟨i, h1, hie⟩
      obtain ⟨pre, hok, h1, hrows⟩ :=
        processCompletions_stops results rest (m.set j v) hex2
      refine ⟨j :: pre, ?_, h1, ?_⟩
      · intro x hx
        rcases List.mem_cons.mp hx with h | h
        · subst h; rw [hj]; exact fun h2 => by cases h2
        · exact hok x h
      · intro i hi
        have hij : i ≠ j := fun h => hi (h ▸ List.mem_cons_self j pre)
        have hpre : i ∉ pre := fun h => hi (List.mem_cons_of_mem j h)
        rw [hrows i hpre, List.getElem?_set_ne (Ne.symm hij)]

/-- Claim C2: the configured requests-per-minute limit is never enforced —
`get_embeddings` submits every request with the delay argument omitted, so
each worker sleeps 0 seconds, strictly less than the computed
`60 / rate_limit_per_minute` (here at the default rate 3500). -/
theorem c2_no_delay_applied :
    get_embeddings_sleep 0 = 0 ∧ delay_in_seconds 3500 = 3 / 175 ∧
    get_embeddings_sleep 0 < delay_in_seconds 3500 := by
  refine ⟨rfl, ?_, ?_⟩ <;>
    norm_num [delay_in_seconds, get_embeddings_sleep, get_embedding_at_index_sleep]

/-- Claim C3, counterexample: with a single block whose embedding fails, the
call does propagate the failure, but `self.embeddings` is left holding the
zero vector `[0, 0]` for the failed block — contradicting the claim that no
unsuccessfully embedded block is left holding a zero vector. -/
theorem c3_counterexample :
    (runGetEmbeddings 1 2 (fun _ => .error ()) [0]).1 = .error () ∧
    (runGetEmbeddings 1 2 (fun _ => .error ()) [0]).2 = [[0, 0]] :=
  ⟨rfl, rfl⟩

/-- Claim C3, amended: if any block's embedding fails, the failure propagates
out of `get_embeddings` (the loop re-raises the first failed future), but the
pre-allocated matrix remains: there is a set of successfully collected blocks
(each with a non-failing result), every failed block lies outside it, and
every block outside it — failed or simply never collected before the abort —
still holds the zero vector. -/
theorem c3_failure_propagates_but_zeros_remain (n len : Nat)
    (results : Nat → Except Unit (List ℚ)) (order : List Nat)
    (_hperm : order.Perm (List.range n)) (j : Nat) (hj : j ∈ order)
    (hfail : results j = .error ()) :
    (runGetEmbeddings n len results order).1 = .error () ∧
    ∃ collected : List Nat,
      (∀ x ∈ collected, results x ≠ .error ()) ∧
      (∀ i, results i = .error () → i ∉ collected) ∧
      ∀ i, i < n → i ∉ collected →
        (runGetEmbeddings n len results order).2[i]? = some (List.replicate len 0) := by
  obtain ⟨pre, hok, h1, hrows⟩ :=
    processCompletions_stops results order (zeroMatrix n len) ⟨j, hj, hfail⟩
  refine ⟨h1, pre, hok, ?_, ?_⟩
  · intro i hie hmem
    exact hok i hmem hie
  · intro i hin hmem
    have hval := hrows i hmem
    unfold runGetEmbeddings
    rw [hval, zeroMatrix, List.getElem?_replicate, if_pos hin]

/-- Claim C3 witness: the amended theorem applied at one failing block. -/
theorem c3_failure_propagates_witness :
    (runGetEmbeddings 1 2 (fun _ => .error ()) [0]).1 = .error () ∧
    ∃ collected : List Nat,
      (∀ x ∈ collected, (fun _ : Nat => (Except.error () : Except Unit (List ℚ))) x ≠ .error ()) ∧
      (∀ i, (fun _ : Nat => (Except.error () : Except Unit (List ℚ))) i = .error () → i ∉ collected) ∧
      ∀ i, i < 1 → i ∉ collected →
        (runGetEmbeddings 1 2 (fun _ => .error ()) [0]).2[i]? = some (List.replicate 2 0) :=
  c3_failure_propagates_but_zeros_remain 1 2 (fun _ => .error ()) [0] (by decide) 0
    (by decide) rfl

/-- Claim C4: with every block's request succeeding, `get_embeddings` over
`n` blocks completes, the matrix has exactly `n` rows, and row `i` is block
`i`'s embedding, for any completion order. -/
theorem c4_embed_all_index_aligned (n len : Nat) (emb : Nat → List ℚ)
    (order : List Nat) (hperm : order.Perm (List.range n)) :
    (runGetEmbeddings n len (fun i => .ok (emb i)) order).1 = .ok () ∧
    (runGetEmbeddings n len (fun i => .ok (emb i)) order).2.length = n ∧
    ∀ i, ∀ h : i < (runGetEmbeddings n len (fun i => .ok (emb i)) order).2.length,
      (runGetEmbeddings n len (fun i => .ok (emb i)) order).2.get ⟨i, h⟩ = emb i := by
  have hrun : runGetEmbeddings n len (fun i => .ok (emb i)) order =
      (.ok (), order.foldl (fun acc j => acc.set j (emb j)) (zeroMatrix n len)) :=
    processCompletions_allOk emb order (zeroMatrix n len)
  have hzlen : (zeroMatrix n len).length = n := by simp [zeroMatrix]
  have hlen2 : (runGetEmbeddings n len (fun i => .ok (emb i)) order).2.length = n := by
    rw [hrun]
    rw [foldlSet_length emb order (zeroMatrix n len), hzlen]
  refine ⟨by rw [hrun], hlen2, ?_⟩
  intro i h
  have hin : i < n := hlen2 ▸ h
  have hmem : i ∈ order := (hperm.mem_iff).mpr (List.mem_range.mpr hin)
  have hq : (runGetEmbeddings n len (fun i => .ok (emb i)) order).2[i]? = some (emb i) := by
    rw [hrun]
    rw [foldlSet_getElem? emb order (zeroMatrix n len) i,
      if_pos ⟨hmem, by rw [hzlen]; exact hin⟩]
  have h2 := List.getElem?_eq_getElem h
  rw [List.get_eq_getElem]
  exact Option.some.inj ((hq.symm.trans h2).symm)

/-- Claim C4 witness: two blocks completed in reversed order. -/
theorem c4_embed_all_witness :
    (runGetEmbeddings 2 1 (fun i => .ok [(i : ℚ)]) [1, 0]).1 = .ok () ∧
    (runGetEmbeddings 2 1 (fun i => .ok [(i : ℚ)]) [1, 0]).2.length = 2 :=
  ⟨(c4_embed_all_index_aligned 2 1 (fun i => [(i : ℚ)]) [1, 0] (by decide)).1,
   (c4_embed_all_index_aligned 2 1 (fun i => [(i : ℚ)]) [1, 0] (by decide)).2.1⟩

/-- Claim C8: saving the vector store to a path and loading from that path
returns the identical matrix (same vector count, same values). -/
theorem c8_save_load_roundtrip (fs : String → Option (List (List ℚ)))
    (path : String) (m : List (List ℚ)) :
    load_embeddings (save_embeddings m fs path) path = some m := by
  simp [load_embeddings, save_embeddings, npLoad, npSave]

theorem retryRun_allFail (op : Nat → Except Unit (List ℚ)) (waits : Nat → ℚ)
    (hfail : ∀ j, j < 5 → op j = .error ()) :
    retryRun 5 op waits = (.error (), 5, [waits 0, waits 1, waits 2, waits 3]) := by
  have h0 := hfail 0 (by norm_num)
  have h1 := hfail 1 (by norm_num)
  have h2 := hfail 2 (by norm_num)
  have h3 := hfail 3 (by norm_num)
  have h4 := hfail 4 (by norm_num)
  simp [retryRun, retryGo, h0, h1, h2, h3, h4]

theorem retryGo_attempts (op : Nat → Except Unit (List ℚ)) (waits : Nat → ℚ) :
    ∀ (fuel k : Nat), (retryGo op waits fuel k).2.1 ≤ k + fuel
  | 0, k => by simp [retryGo]
  | fuel + 1, k => by
    unfold retryGo
    cases op k with
    | ok a => simp
    | error e =>
      cases fuel with
      | zero => simp
      | succ f =>
        have := retryGo_attempts op waits (f + 1) (k + 1)
        simp only []
        omega

theorem retryGo_waits (op : Nat → Except Unit (List ℚ)) (waits : Nat → ℚ) :
    ∀ (fuel k : Nat) (w : ℚ), w ∈ (retryGo op waits fuel k).2.2 → ∃ j, w = waits j
  | 0, _, w => by simp [retryGo]
  | fuel + 1, k, w => by
    unfold retryGo
    cases op k with
    | ok a => simp
    | error e =>
      cases fuel with
      | zero => simp
      | succ f =>
        intro hw
        simp only [] at hw
        rcases List.mem_cons.mp hw with h | h
        · exact ⟨k, h⟩
        · exact retryGo_waits op waits (f + 1) (k + 1) w h

/-- Claim C5: with the configured policy (randomized exponential backoff with
bounds 1 and 20, 5 total attempts), an operation failing its first five
attempts fails the whole call after exactly 5 attempts; no run ever makes
more than 5 attempts; and every backoff wait lies within `[1, 20]`. -/
theorem c5_retry_policy (op : Nat → Except Unit (List ℚ)) (r : Nat → ℚ)
    (hfail : ∀ j, j < 5 → op j = .error ()) :
    (retryRun 5 op (fun n => backoffWait 1 20 n (r n))).1 = .error () ∧
    (retryRun 5 op (fun n => backoffWait 1 20 n (r n))).2.1 = 5 ∧
    (∀ op2 : Nat → Except Unit (List ℚ),
      (retryRun 5 op2 (fun n => backoffWait 1 20 n (r n))).2.1 ≤ 5) ∧
    ∀ w ∈ (retryRun 5 op (fun n => backoffWait 1 20 n (r n))).2.2,
      1 ≤ w ∧ w ≤ 20 := by
  have hall := retryRun_allFail op (fun n => backoffWait 1 20 n (r n)) hfail
  refine ⟨by rw [hall], by rw [hall], fun op2 => ?_, fun w hw => ?_⟩
  · have := retryGo_attempts op2 (fun n => backoffWait 1 20 n (r n)) 5 0
    simpa [retryRun] using this
  · obtain ⟨j, hj⟩ := retryGo_waits op (fun n => backoffWait 1 20 n (r n)) 5 0 w hw
    rw [hj]
    unfold backoffWait
    constructor
    · exact le_max_left _ _
    · exact max_le (by norm_num) (min_le_left _ _)

/-- Claim C5 witness: the policy run on an always-failing operation. -/
theorem c5_retry_policy_witness :
    (retryRun 5 (fun _ => .error ()) (fun n => backoffWait 1 20 n 0)).1 = .error () ∧
    (retryRun 5 (fun _ => .error ()) (fun n => backoffWait 1 20 n 0)).2.1 = 5 :=
  ⟨(c5_retry_policy (fun _ => .error ()) (fun _ => 0) (fun _ _ => rfl)).1,
   (c5_retry_policy (fun _ => .error ()) (fun _ => 0) (fun _ _ => rfl)).2.1⟩

theorem isSome_and_truthy (o : Option String) : (o.isSome && truthy o) = truthy o := by
  cases o <;> simp [truthy]

theorem getUrl_firstTruthy (e : Article) :
    getUrl e = firstTruthy [e.link, e.url, e.doi] := by
  simp only [getUrl, firstTruthy, isSome_and_truthy]

theorem getAuthor_firstTruthy (e : Article) :
    getAuthor e = firstTruthy [e.author, e.authors] := by
  obtain ⟨_, _, _, au, aus, _, _, _, _, _, _, _, _, _, _⟩ := e
  rcases au with _ | s <;> rcases aus with _ | t
  · simp [getAuthor, firstTruthy, truthy]
  · by_cases ht : t = "" <;> simp [getAuthor, firstTruthy, truthy, strTruthy, ht]
  · by_cases hs : s = "" <;> simp [getAuthor, firstTruthy, truthy, strTruthy, hs]
  · by_cases hs : s = "" <;> by_cases ht : t = "" <;>
      simp [getAuthor, firstTruthy, truthy, strTruthy, hs, ht]

theorem getText_firstTruthy (e : Article) :
    (getText e).toOption = firstTruthy [e.text] := by
  obtain ⟨_, _, _, _, _, _, _, _, _, _, _, tx, _, _, _⟩ := e
  rcases tx with _ | s
  · simp [getText, firstTruthy, truthy, Except.toOption]
  · by_cases hs : s = "" <;>
      simp [getText, firstTruthy, truthy, strTruthy, hs, Except.toOption]

/-- Claim C6, counterexample: with `title` present but empty beside a
non-empty `book_title`, the extracted title is `None` — neither the first
present field's value (`""`) nor the first truthy one (`"Foo"`); and with a
short `date_published` beside a long `published`, the date comes from the
second candidate although the first is present. -/
theorem c6_counterexample :
    getTitle { title := some "", book_title := some "Foo" } = none ∧
    firstPresent [some "", some "Foo"] = some "" ∧
    firstTruthy [some "", some "Foo"] = some "Foo" ∧
    getDate { date_published := some "2020", published := some "2020-01-02 03:04:05" } =
      some "2020-01-02 03:04" :=
  ⟨rfl, rfl, rfl, rfl⟩

/-- Claim C6, amended: author, url and text follow "first present-and-truthy
candidate wins" over their fixed candidate lists; title and date deviate
(title yields nothing when an empty `title` key coexists with `book_title`,
and date candidates additionally require minimum lengths and are
truncated). -/
theorem c6_field_precedence (e : Article) :
    getAuthor e = firstTruthy [e.author, e.authors] ∧
    getUrl e = firstTruthy [e.link, e.url, e.doi] ∧
    (getText e).toOption = firstTruthy [e.text] ∧
    getTitle { title := some "", book_title := some "Foo" } = none ∧
    getDate { date_published := some "2020", published := some "2020-01-02 03:04:05" } =
      some "2020-01-02 03:04" :=
  ⟨getAuthor_firstTruthy e, getUrl_firstTruthy e, getText_firstTruthy e, rfl, rfl⟩

theorem assocGet_assocIncr_self :
    ∀ (d : List (String × Nat)) (key : String),
    assocGet (assocIncr d key) key = some ((assocGet d key).getD 0 + 1)
  | [], key => by simp [assocIncr, assocGet]
  | (k2, v) :: rest, key => by
    by_cases h : k2 = key
    · simp [assocIncr, assocGet, h]
    · simp [assocIncr, assocGet, h, assocGet_assocIncr_self rest key]

theorem ingestGo_cons_ok (cfg : IngestCfg) (rands : Nat → ℚ) (e : Article)
    (rest : List Article) (st st2 : IngestState) (k k2 : Nat)
    (h : processEntry cfg rands e st k = (.ok (), st2, k2)) :
    ingestGo cfg rands (e :: rest) st k = ingestGo cfg rands rest st2 k2 := by
  simp only [ingestGo]
  rw [h]

theorem processEntry_src_tally (cfg : IngestCfg) (rands : Nat → ℚ) (e : Article)
    (st : IngestState) (k : Nat) (s reason : String)
    (h1 : sourceOf e = .src s) (h2 : ¬ rands k > cfg.fraction)
    (h3 : filterSkips cfg.custom_sources s = false)
    (h4 : extract_info_from_article e = .error (.missingData reason)) :
    processEntry cfg rands e st k = (.ok (), tallySt (incArt st s) reason, k + 1) := by
  simp [processEntry, h1, h2, h3, h4]

theorem processEntry_src_ok (cfg : IngestCfg) (rands : Nat → ℚ) (e : Article)
    (st : IngestState) (k : Nat) (s : String) (tup : MetaTuple)
    (h1 : sourceOf e = .src s) (h2 : ¬ rands k > cfg.fraction)
    (h3 : filterSkips cfg.custom_sources s = false)
    (h4 : extract_info_from_article e = .ok tup) :
    processEntry cfg rands e st k = (.ok (), appendArticle cfg (incArt st s) tup, k + 1) := by
  simp [processEntry, h1, h2, h3, h4]

/-- Claim C1, counterexample: a two-record corpus — one record with a source
but no `text`, one valid record — does put 1 rejection under
"Entry has no text.", but the statistics report `total_articles_count = 2`,
not 1: the article counters increment before the text check, so the
rejected record is counted too (only 1 metadata entry is produced). -/
theorem c1_counterexample :
    assocGet ((get_alignment_texts cfg0 (fun _ => 0)
        [{ source := some "s" }, { source := some "s", text := some "good text." }]).2).error_counts
      "Entry has no text." = some 1 ∧
    ((get_alignment_texts cfg0 (fun _ => 0)
        [{ source := some "s" }, { source := some "s", text := some "good text." }]).2).total_articles_count = 2 ∧
    ((get_alignment_texts cfg0 (fun _ => 0)
        [{ source := some "s" }, { source := some "s", text := some "good text." }]).2).metadata.length = 1 :=
  ⟨rfl, rfl, rfl⟩

/-- Claim C1, amended: for a corpus of one record with a source but a missing
(or empty) `text` and one valid record, the pass completes with exactly 1
rejection tallied under "Entry has no text." and exactly one successful
article in the metadata list, while `total_articles_count` reads 2 because
the article counters increment before text extraction. -/
theorem c1_no_text_scenario (cfg : IngestCfg) (rands : Nat → ℚ) (r1 r2 : Article)
    (s1 s2 : String) (tup : MetaTuple)
    (hc : cfg.custom_sources = none) (hf : cfg.fraction = 1)
    (hr : ∀ k, rands k ≤ 1)
    (h1 : sourceOf r1 = .src s1)
    (hx1 : extract_info_from_article r1 = .error (.missingData "Entry has no text."))
    (h2 : sourceOf r2 = .src s2)
    (hx2 : extract_info_from_article r2 = .ok tup) :
    (get_alignment_texts cfg rands [r1, r2]).1 = .ok () ∧
    assocGet ((get_alignment_texts cfg rands [r1, r2]).2).error_counts
      "Entry has no text." = some 1 ∧
    ((get_alignment_texts cfg rands [r1, r2]).2).total_articles_count = 2 ∧
    ((get_alignment_texts cfg rands [r1, r2]).2).metadata.length = 1 := by
  have hfs : ∀ s, filterSkips cfg.custom_sources s = false := by
    intro s; rw [hc]; rfl
  have hnot : ∀ k, ¬ rands k > cfg.fraction := by
    intro k; rw [hf]; exact not_lt.mpr (hr k)
  have e1 := processEntry_src_tally cfg rands r1 startState 0 s1
    "Entry has no text." h1 (hnot 0) (hfs s1) hx1
  have e2 := processEntry_src_ok cfg rands r2
    (tallySt (incArt startState s1) "Entry has no text.") 1 s2 tup h2 (hnot 1) (hfs s2) hx2
  have hrun : get_alignment_texts cfg rands [r1, r2] =
      (.ok (), appendArticle cfg
        (incArt (tallySt (incArt startState s1) "Entry has no text.") s2) tup) := by
    unfold get_alignment_texts
    rw [ingestGo_cons_ok cfg rands r1 _ _ _ _ _ e1,
      ingestGo_cons_ok cfg rands r2 _ _ _ _ _ e2]
    rfl
  rw [hrun]
  refine ⟨rfl, rfl, rfl, ?_⟩
  show (startState.metadata ++ [tup]).length = 1
  rfl

/-- Claim C1 witness: the amended scenario at a concrete corpus. -/
theorem c1_no_text_witness :
    (get_alignment_texts cfg0 (fun _ => 0)
      [{ source := some "s" }, { source := some "s", text := some "good text." }]).1 = .ok () ∧
    assocGet ((get_alignment_texts cfg0 (fun _ => 0)
      [{ source := some "s" }, { source := some "s", text := some "good text." }]).2).error_counts
      "Entry has no text." = some 1 ∧
    ((get_alignment_texts cfg0 (fun _ => 0)
      [{ source := some "s" }, { source := some "s", text := some "good text." }]).2).total_articles_count = 2 ∧
    ((get_alignment_texts cfg0 (fun _ => 0)
      [{ source := some "s" }, { source := some "s", text := some "good text." }]).2).metadata.length = 1 :=
  c1_no_text_scenario cfg0 (fun _ => 0) _ _ "s" "s" _ rfl rfl
    (fun _ => by norm_num) rfl rfl rfl rfl

/-- Claim C7, amended: a record rejected via `MissingDataException` — whether
because no source remains after the fallbacks, or because extraction raised a
missing-data reason — never aborts the pass: the iteration succeeds, the
reason string itself becomes a key in the tally (incremented from its
previous value, 0 if unseen), and the loop continues with the remaining
records.  (A record with a wrongly-typed field, e.g. a tags list whose item
lacks `term`, instead raises an uncaught error that aborts the pass: see the
counterexample.) -/
theorem c7_missing_data_tallied (cfg : IngestCfg) (rands : Nat → ℚ) (e : Article)
    (rest : List Article) (st : IngestState) (k : Nat) (reason : String)
    (h : (sourceOf e = SourceResult.fail ∧ reason = "Entry has no source.") ∨
      ∃ s, sourceOf e = .src s ∧ ¬ rands k > cfg.fraction ∧
        filterSkips cfg.custom_sources s = false ∧
        extract_info_from_article e = .error (.missingData reason)) :
    (processEntry cfg rands e st k).1 = .ok () ∧
    assocGet ((processEntry cfg rands e st k).2.1).error_counts reason =
      some ((assocGet st.error_counts reason).getD 0 + 1) ∧
    ∃ st2 k2, processEntry cfg rands e st k = (.ok (), st2, k2) ∧
      ingestGo cfg rands (e :: rest) st k = ingestGo cfg rands rest st2 k2 := by
  rcases h with ⟨hf, hr⟩ | ⟨s, h1, h2, h3, h4⟩
  · subst hr
    have hpe : processEntry cfg rands e st k =
        (.ok (), tallySt st "Entry has no source.", k) := by
      unfold processEntry
      rw [hf]
    exact ⟨by rw [hpe],
      by rw [hpe]; exact assocGet_assocIncr_self st.error_counts _,
      _, _, hpe, ingestGo_cons_ok cfg rands e rest st _ k _ hpe⟩
  · have hpe := processEntry_src_tally cfg rands e st k s reason h1 h2 h3 h4
    exact ⟨by rw [hpe],
      by rw [hpe]; exact assocGet_assocIncr_self st.error_counts reason,
      _, _, hpe, ingestGo_cons_ok cfg rands e rest st _ k _ hpe⟩

/-- Claim C7 witness: a record with no source at all (the fallback-exhausted
path) is tallied under "Entry has no source." and the pass continues. -/
theorem c7_missing_data_witness :
    (processEntry cfg0 (fun _ => 0) {} startState 0).1 = .ok () ∧
    assocGet ((processEntry cfg0 (fun _ => 0) {} startState 0).2.1).error_counts
      "Entry has no source." =
      some ((assocGet startState.error_counts "Entry has no source.").getD 0 + 1) ∧
    ∃ st2 k2, processEntry cfg0 (fun _ => 0) {} startState 0 = (.ok (), st2, k2) ∧
      ingestGo cfg0 (fun _ => 0) [{}] startState 0 =
        ingestGo cfg0 (fun _ => 0) [] st2 k2 :=
  c7_missing_data_tallied cfg0 (fun _ => 0) {} [] startState 0
    "Entry has no source." (Or.inl ⟨rfl, rfl⟩)

/-- Claim C7, counterexample: a corpus whose first record has a malformed
`tags` field (a list item without a `term` key) aborts the whole pass with
an uncaught KeyError; the valid second record is never processed (no
metadata), although the first record had already been counted. -/
theorem c7_counterexample :
    (get_alignment_texts cfg0 (fun _ => 0)
      [{ source := some "s", tags := some (.tlist [none]), text := some "body" },
       { source := some "s", text := some "good." }]).1 = .error .keyError ∧
    ((get_alignment_texts cfg0 (fun _ => 0)
      [{ source := some "s", tags := some (.tlist [none]), text := some "body" },
       { source := some "s", text := some "good." }]).2).metadata = [] ∧
    ((get_alignment_texts cfg0 (fun _ => 0)
      [{ source := some "s", tags := some (.tlist [none]), text := some "body" },
       { source := some "s", text := some "good." }]).2).total_articles_count = 1 :=
  ⟨rfl, rfl, rfl⟩

/-- Claim C9, amended: a record lacking `source` with both `question` and
`answer` present is skipped — nothing counted, no metadata, no blocks, no
random draw consumed — unless its `url` equals the Cold Takes URL, whose
fallback fires first. -/
theorem c9_question_answer_skipped (cfg : IngestCfg) (rands : Nat → ℚ)
    (e : Article) (rest : List Article) (st : IngestState) (k : Nat)
    (hs : e.source = none) (hq : e.question.isSome) (ha : e.answer.isSome)
    (hu : e.url ≠ some "https://www.cold-takes.com/") :
    processEntry cfg rands e st k = (.ok (), st, k) ∧
    ingestGo cfg rands (e :: rest) st k = ingestGo cfg rands rest st k := by
  have hsrc : sourceOf e = .skip := by
    unfold sourceOf
    rw [hs]
    rw [if_neg hu]
    simp [hq, ha]
  have hpe : processEntry cfg rands e st k = (.ok (), st, k) := by
    unfold processEntry
    rw [hsrc]
  exact ⟨hpe, ingestGo_cons_ok cfg rands e rest st st k k hpe⟩

/-- Claim C9 witness: a printouts-style record is skipped outright. -/
theorem c9_skip_witness :
    processEntry cfg0 (fun _ => 0) { question := some "q", answer := some "a" }
      startState 0 = (.ok (), startState, 0) :=
  (c9_question_answer_skipped cfg0 (fun _ => 0)
    { question := some "q", answer := some "a" } [] startState 0
    rfl rfl rfl (by simp)).1

/-- Claim C9, counterexample: a record lacking `source`, holding both
`question` and `answer`, whose `url` is the Cold Takes URL, is NOT skipped:
the Cold Takes fallback fires first, so it is counted and contributes
metadata. -/
theorem c9_counterexample :
    ((get_alignment_texts cfg0 (fun _ => 0)
      [{ url := some "https://www.cold-takes.com/", question := some "q",
         answer := some "a", text := some "body" }]).2).total_articles_count = 1 ∧
    ((get_alignment_texts cfg0 (fun _ => 0)
      [{ url := some "https://www.cold-takes.com/", question := some "q",
         answer := some "a", text := some "body" }]).2).metadata.length = 1 :=
  ⟨rfl, rfl⟩

/-- Claim C10: a record rejected with a missing-data error (either no source
after the fallbacks, or a `MissingDataException` from extraction) leaves the
metadata list and the block-text list exactly as they were. -/
theorem c10_rejected_adds_nothing (cfg : IngestCfg) (rands : Nat → ℚ)
    (e : Article) (st : IngestState) (k : Nat)
    (h : sourceOf e = SourceResult.fail ∨
      ∃ reason, extract_info_from_article e = .error (.missingData reason)) :
    ((processEntry cfg rands e st k).2.1).metadata = st.metadata ∧
    ((processEntry cfg rands e st k).2.1).embedding_strings = st.embedding_strings := by
  unfold processEntry
  cases hsc : sourceOf e with
  | skip => exact ⟨rfl, rfl⟩
  | fail => exact ⟨rfl, rfl⟩
  | src s =>
    by_cases hb1 : rands k > cfg.fraction
    · simp [hb1]
    · by_cases hb2 : filterSkips cfg.custom_sources s
      · simp [hb1, hb2]
      · rcases h with h | ⟨reason, hx⟩
        · rw [hsc] at h
          cases h
        · simp [hb1, hb2, hx, tallySt, incArt]

/-- Claim C10 witness: a record with no source at all leaves both lists
unchanged. -/
theorem c10_rejected_witness :
    ((processEntry cfg0 (fun _ => 0) {} startState 0).2.1).metadata = startState.metadata ∧
    ((processEntry cfg0 (fun _ => 0) {} startState 0).2.1).embedding_strings =
      startState.embedding_strings :=
  c10_rejected_adds_nothing cfg0 (fun _ => 0) {} startState 0 (Or.inl rfl)


end StampyChat
